import Mathlib

/-!
Shallow embedding of the `bourne` JSON parser (src/error.rs, src/lib.rs,
src/parse.rs) and proofs about it.

Modelling conventions:
* Rust `&str` input is modelled as a `List Nat` of its UTF-8 bytes; byte
  indexes are `Nat`.
* Rust `String`/`char` data produced by the parser is modelled as
  `List Char` (Lean `Char` is a Unicode scalar value, as in Rust).
* Mutating methods of `Parser { source, index }` become functions taking
  the source and the current index and returning the result paired with
  the new index, inside `Except ParseError`.
* Loops (`while let`, `loop`) are modelled with an explicit fuel argument
  so every definition is structurally recursive and executable; the fuel
  passed by the wrappers (`source.length + 1`) always exceeds the number
  of iterations, and the fuel-exhaustion branch is chosen to coincide
  with the code's end-of-input behaviour, which is the only way it can
  be reached when the fuel bound holds.
* Rust `f64` values are not modelled (floating point): `Number::Float`
  carries the captured literal bytes instead of a float.  Nothing proved
  here depends on a float value, only on which variant is produced.
  (Rust's `str::parse::<f64>` never fails on a literal accepted by the
  number state machine, so the `?` on the float parse is dead.)
* `ValueMap` (hashbrown `HashMap` / indexmap `IndexMap`, a build-time
  choice) is modelled as an insertion-ordered association list whose
  `insert` overwrites an existing key in place; the claims below depend
  only on membership, emptiness and length, not on iteration order.
-/

/-- Error type of src/error.rs.  The variant `unexpectedCommaInArrayOrObject`
is NOT declared in src/error.rs; it is nevertheless referenced by
`Parser::parse_array` (src/parse.rs line 433) and `Parser::parse_object`
(src/parse.rs line 494), so it is included here in order to give those two
expressions a meaning.  Payloads of the wrapped std errors
(`ParseIntError`, `ParseFloatError`) are not modelled. -/
inductive ParseError where
  | invalidCharacter (index : Nat)
  | unexpectedEOF
  | unexpectedEOFWhileParsingString (start : Nat)
  | lineBreakWhileParsingString (index : Nat)
  | parseIntError
  | parseFloatError
  | invalidEscapeSequence
  | invalidHex
  | unexpectedCommaInArrayOrObject (index : Nat)
deriving Repr, DecidableEq

/-- Number type of src/lib.rs.  `float` carries the captured literal bytes
(the `f64` value itself is not modelled, see the header comment). -/
inductive Number where
  | float (lit : List Nat)
  | int (n : Int)
deriving Repr, DecidableEq

/-- Value type of src/lib.rs.  Strings are `List Char`; objects are
insertion-ordered association lists (see the header comment). -/
inductive Value where
  | null
  | boolean (b : Bool)
  | number (n : Number)
  | string (s : List Char)
  | array (a : List Value)
  | object (o : List (List Char × Value))
deriving Repr

/-- Mapping used for `Value.object`, as in src/lib.rs (`ValueMap`). -/
abbrev ValueMap := List (List Char × Value)

/-- Model of `ValueMap::insert`: overwrite the entry of an existing key in
place, otherwise append the new entry. -/
def ValueMap.insert (m : ValueMap) (k : List Char) (v : Value) : ValueMap :=
  match m with
  | [] => [(k, v)]
  | (k', v') :: rest =>
    if k' = k then (k, v) :: rest else (k', v') :: ValueMap.insert rest k v

/-- Model of `ValueMap::get`. -/
def ValueMap.get (m : ValueMap) (k : List Char) : Option Value :=
  match m with
  | [] => none
  | (k', v') :: rest => if k' = k then some v' else ValueMap.get rest k

/-- Model of `ValueMap::is_empty`. -/
def ValueMap.isEmptyMap (m : ValueMap) : Bool :=
  match m with
  | [] => true
  | _ :: _ => false

/-- Model of `ValueMap::entry(key).or_insert(Value::Null)` (src/lib.rs,
`<&str as IndexOrKey>::get_or_insert`): return the map after the call
together with the value the returned mutable reference points at. -/
def ValueMap.entryOrInsertNull (m : ValueMap) (k : List Char) :
    ValueMap × Value :=
  match m with
  | [] => ([(k, Value.null)], Value.null)
  | (k', v') :: rest =>
    if k' = k then ((k', v') :: rest, v')
    else
      let r := ValueMap.entryOrInsertNull rest k
      ((k', v') :: r.1, r.2)

/-- Function `hex_value` of src/parse.rs: convert a hexadecimal character
into a 16-bit value ('W' is 10 below 'a', '7' is 10 below 'A'). -/
def hex_value (chr : Char) : Option Nat :=
  if '0' ≤ chr ∧ chr ≤ '9' then some (chr.toNat - '0'.toNat)
  else if 'a' ≤ chr ∧ chr ≤ 'f' then some (chr.toNat - 'W'.toNat)
  else if 'A' ≤ chr ∧ chr ≤ 'F' then some (chr.toNat - '7'.toNat)
  else none

/-- Model of Rust `char::from_u32`: `some` exactly on valid Unicode scalar
values (rejects the surrogate range 0xD800-0xDFFF and values above
0x10FFFF). -/
def from_u32 (n : Nat) : Option Char :=
  if n < 0xd800 ∨ (0xdfff < n ∧ n < 0x110000) then some (Char.ofNat n)
  else none

mutual

/-- Function `unescape_string` of src/parse.rs, on the character sequence of
the raw string: any character other than a backslash is copied to the
buffer; a backslash hands over to the escape handler.  The single Rust
loop is split into three mutually recursive functions (main loop, escape
dispatch, `\u` sequence) so that each stays executable and structurally
recursive; together they are the loop body of the source. -/
def unescape_string (s : List Char) : Except ParseError (List Char) :=
  match s with
  | [] => .ok []
  | c :: rest =>
    if c ≠ '\\' then
      match unescape_string rest with
      | .ok buffer => .ok (c :: buffer)
      | .error e => .error e
    else unescape_escaped rest
termination_by structural s

/-- Escape dispatch of `unescape_string` (the `match chars.next()` after a
backslash): the five known escapes map to their control characters, `u`
starts a hex sequence, end of input is `UnexpectedEOF`, and any other
character is pushed literally. -/
def unescape_escaped (rest : List Char) : Except ParseError (List Char) :=
  match rest with
  | [] => .error .unexpectedEOF
  | e :: rest2 =>
    if e = 'f' then
      match unescape_string rest2 with
      | .ok buffer => .ok ('\u000c' :: buffer)
      | .error err => .error err
    else if e = 'b' then
      match unescape_string rest2 with
      | .ok buffer => .ok ('\u0008' :: buffer)
      | .error err => .error err
    else if e = 'n' then
      match unescape_string rest2 with
      | .ok buffer => .ok ('\n' :: buffer)
      | .error err => .error err
    else if e = 'r' then
      match unescape_string rest2 with
      | .ok buffer => .ok ('\r' :: buffer)
      | .error err => .error err
    else if e = 't' then
      match unescape_string rest2 with
      | .ok buffer => .ok ('\t' :: buffer)
      | .error err => .error err
    else if e = 'u' then unescape_u rest2
    else
      match unescape_string rest2 with
      | .ok buffer => .ok (e :: buffer)
      | .error err => .error err
termination_by structural rest

/-- Hex sequence of a `\u` escape: first iteration of the `for i in 0..4`
loop of the source (`hex` starts at 0; `hex |= value; if i < 3 { hex <<= 4
}`).  A missing character is `UnexpectedEOF`, a non-hex character is
`InvalidHex`, in stream order. -/
def unescape_u (rest2 : List Char) : Except ParseError (List Char) :=
  match rest2 with
  | [] => .error .unexpectedEOF
  | d1 :: rest3 =>
    match hex_value d1 with
    | none => .error .invalidHex
    | some v1 => unescape_u2 ((0 ||| v1) <<< 4) rest3
termination_by structural rest2

/-- Second iteration of the `\u` hex loop. -/
def unescape_u2 (hex : Nat) (rest3 : List Char) : Except ParseError (List Char) :=
  match rest3 with
  | [] => .error .unexpectedEOF
  | d2 :: rest4 =>
    match hex_value d2 with
    | none => .error .invalidHex
    | some v2 => unescape_u3 ((hex ||| v2) <<< 4) rest4
termination_by structural rest3

/-- Third iteration of the `\u` hex loop. -/
def unescape_u3 (hex : Nat) (rest4 : List Char) : Except ParseError (List Char) :=
  match rest4 with
  | [] => .error .unexpectedEOF
  | d3 :: rest5 =>
    match hex_value d3 with
    | none => .error .invalidHex
    | some v3 => unescape_u4 ((hex ||| v3) <<< 4) rest5
termination_by structural rest4

/-- Fourth (last) iteration of the `\u` hex loop: no shift after the last
`|=`; the combined value goes through `char::from_u32`
(`InvalidEscapeSequence` when it is not a valid scalar), and on success the
decoded character is pushed and the main loop continues. -/
def unescape_u4 (hex : Nat) (rest5 : List Char) : Except ParseError (List Char) :=
  match rest5 with
  | [] => .error .unexpectedEOF
  | d4 :: rest6 =>
    match hex_value d4 with
    | none => .error .invalidHex
    | some v4 =>
      match from_u32 (hex ||| v4) with
      | none => .error .invalidEscapeSequence
      | some res =>
        match unescape_string rest6 with
        | .ok buffer => .ok (res :: buffer)
        | .error err => .error err
termination_by structural rest5

end

/-!
Model of Rust `str::chars` over the UTF-8 bytes of a `&str` slice:
standard UTF-8 decoding, split into a dispatcher and one helper per
sequence length so each definition stays small.  The parser only ever
applies it to slices of its input, which Rust guarantees to be valid
UTF-8; on invalid sequences (unreachable under that guarantee) the decoder
just skips the byte.
-/
mutual

/-- Decoder dispatch of `str::chars`: one byte below 0x80 is one ASCII
character; larger lead bytes start a 2-, 3- or 4-byte sequence. -/
def utf8Chars : List Nat → List Char
  | [] => []
  | b :: rest =>
    if b < 0x80 then Char.ofNat b :: utf8Chars rest
    else if b < 0xE0 then utf8Chars2 b rest
    else if b < 0xF0 then utf8Chars3 b rest
    else utf8Chars4 b rest
termination_by structural bs => bs

/-- Continuation bytes of a 2-byte UTF-8 sequence. -/
def utf8Chars2 (b : Nat) : List Nat → List Char
  | b2 :: rest2 =>
    Char.ofNat (((b &&& 0x1F) <<< 6) ||| (b2 &&& 0x3F)) :: utf8Chars rest2
  | [] => []
termination_by structural rest => rest

/-- Continuation bytes of a 3-byte UTF-8 sequence. -/
def utf8Chars3 (b : Nat) : List Nat → List Char
  | b2 :: b3 :: rest3 =>
    Char.ofNat ((((b &&& 0x0F) <<< 6) ||| (b2 &&& 0x3F)) <<< 6
      ||| (b3 &&& 0x3F)) :: utf8Chars rest3
  | [_] => []
  | [] => []
termination_by structural rest => rest

/-- Continuation bytes of a 4-byte UTF-8 sequence. -/
def utf8Chars4 (b : Nat) : List Nat → List Char
  | b2 :: b3 :: b4 :: rest4 =>
    Char.ofNat (((((b &&& 0x07) <<< 6) ||| (b2 &&& 0x3F)) <<< 6
      ||| (b3 &&& 0x3F)) <<< 6 ||| (b4 &&& 0x3F)) :: utf8Chars rest4
  | [_, _] => []
  | [_] => []
  | [] => []
termination_by structural rest => rest

end

/-- Byte test used by `Parser::eat_whitespace` and the number/string parsers:
Rust `u8::is_ascii_whitespace` (space, tab, line feed, form feed, carriage
return). -/
def isAsciiWhitespace (b : Nat) : Bool :=
  b == 32 || b == 9 || b == 10 || b == 12 || b == 13

/-- Terminator bytes of a numeric literal: `}`, `]`, `,` or ASCII
whitespace (used in the statements about `parse_number`). -/
def isNumberTerminator (b : Nat) : Bool :=
  b == 125 || b == 93 || b == 44 || isAsciiWhitespace b

/-- Byte test used in the statements about `parse_number`: a decimal point
or an exponent marker (`.`, `e`, `E`). -/
def isDotOrExp (b : Nat) : Bool :=
  b == 46 || b == 101 || b == 69

/-- Token test used in the statements about `parse_number`: does the
captured token contain a decimal point or an exponent marker? -/
def hasDotExp (tok : List Nat) : Bool :=
  tok.any isDotOrExp

/-- Model of the slice `&source[a..b]`. -/
def sliceBytes (s : List Nat) (a b : Nat) : List Nat :=
  (s.drop a).take (b - a)

/-- Method `Parser::eat_whitespace`: advance the index over ASCII
whitespace. -/
def eat_whitespace (s : List Nat) (i : Nat) : Nat :=
  i + ((s.drop i).takeWhile (fun b => isAsciiWhitespace b)).length

/-- Method `Parser::matches`: exact byte-sequence test at the current
index. -/
def matchesLit (s : List Nat) (i : Nat) (text : List Nat) : Bool :=
  decide (i + text.length ≤ s.length) && ((s.drop i).take text.length == text)

/-- Method `Parser::parse_null`: match the `null` keyword. -/
def parse_null (s : List Nat) (i : Nat) : Except ParseError (Value × Nat) :=
  if matchesLit s i [110, 117, 108, 108] then .ok (.null, i + 4)
  else .error (.invalidCharacter i)

/-- Method `Parser::parse_boolean`: match the `true` or `false` keyword. -/
def parse_boolean (s : List Nat) (i : Nat) : Except ParseError (Bool × Nat) :=
  if matchesLit s i [116, 114, 117, 101] then .ok (true, i + 4)
  else if matchesLit s i [102, 97, 108, 115, 101] then .ok (false, i + 5)
  else .error (.invalidCharacter i)

/-- States of the numeric-literal state machine of `Parser::parse_number`. -/
inductive NumState where
  | start
  | afterSign
  | afterZero
  | integerPart
  | afterDecimalPoint
  | fractionalPart
  | afterExponent
  | afterExponentSign
  | exponentPart
deriving Repr, DecidableEq

/-- States of the number state machine that can only be reached after a
decimal point or an exponent marker has been consumed (used in the
invariant proof about `is_integer`). -/
def lateNumState (st : NumState) : Bool :=
  match st with
  | .afterDecimalPoint | .fractionalPart | .afterExponent
  | .afterExponentSign | .exponentPart => true
  | _ => false

/-- Main loop of `Parser::parse_number`.  Returns `some end` (the index of
the terminator byte, which is both where the captured token ends and the
parser index after the one-byte rewind) when the literal was ended by a
terminator, `none` when the loop ran off the end of the input (in which
case the code never assigns `end`), together with the final `is_integer`
flag.  The fuel-exhaustion branch coincides with the end-of-input exit;
the wrapper's fuel makes it unreachable. -/
def num_loop (s : List Nat) : Nat → Nat → NumState → Bool →
    Except ParseError (Option Nat × Bool)
  | 0, _, _, is_integer => .ok (none, is_integer)
  | fuel + 1, i, state, is_integer =>
    match s[i]? with
    | none => .ok (none, is_integer)
    | some next =>
      match state with
      | .start =>
        if next = 43 ∨ next = 45 then
          num_loop s fuel (i + 1) .afterSign is_integer
        else if next = 48 then num_loop s fuel (i + 1) .afterZero is_integer
        else if 49 ≤ next ∧ next ≤ 57 then
          num_loop s fuel (i + 1) .integerPart is_integer
        else .error (.invalidCharacter i)
      | .afterSign =>
        if next = 48 then num_loop s fuel (i + 1) .afterZero is_integer
        else if 49 ≤ next ∧ next ≤ 57 then
          num_loop s fuel (i + 1) .integerPart is_integer
        else .error (.invalidCharacter i)
      | .afterZero =>
        if next = 46 then num_loop s fuel (i + 1) .afterDecimalPoint false
        else if next = 101 ∨ next = 69 then
          num_loop s fuel (i + 1) .afterExponent false
        else if next = 125 ∨ next = 93 ∨ next = 44 then .ok (some i, is_integer)
        else if isAsciiWhitespace next then .ok (some i, is_integer)
        else .error (.invalidCharacter i)
      | .integerPart =>
        if 48 ≤ next ∧ next ≤ 57 then
          num_loop s fuel (i + 1) .integerPart is_integer
        else if next = 46 then num_loop s fuel (i + 1) .afterDecimalPoint false
        else if next = 101 ∨ next = 69 then
          num_loop s fuel (i + 1) .afterExponent false
        else if next = 125 ∨ next = 93 ∨ next = 44 then .ok (some i, is_integer)
        else if isAsciiWhitespace next then .ok (some i, is_integer)
        else .error (.invalidCharacter i)
      | .afterDecimalPoint =>
        if 48 ≤ next ∧ next ≤ 57 then
          num_loop s fuel (i + 1) .fractionalPart is_integer
        else .error (.invalidCharacter i)
      | .fractionalPart =>
        if 48 ≤ next ∧ next ≤ 57 then
          num_loop s fuel (i + 1) .fractionalPart is_integer
        else if next = 101 ∨ next = 69 then
          num_loop s fuel (i + 1) .afterExponent is_integer
        else if next = 125 ∨ next = 93 ∨ next = 44 then .ok (some i, is_integer)
        else if isAsciiWhitespace next then .ok (some i, is_integer)
        else .error (.invalidCharacter i)
      | .afterExponent =>
        if next = 43 ∨ next = 45 then
          num_loop s fuel (i + 1) .afterExponentSign is_integer
        else if 48 ≤ next ∧ next ≤ 57 then
          num_loop s fuel (i + 1) .exponentPart is_integer
        else .error (.invalidCharacter i)
      | .afterExponentSign =>
        if 48 ≤ next ∧ next ≤ 57 then
          num_loop s fuel (i + 1) .exponentPart is_integer
        else .error (.invalidCharacter i)
      | .exponentPart =>
        if 48 ≤ next ∧ next ≤ 57 then
          num_loop s fuel (i + 1) .exponentPart is_integer
        else if next = 125 ∨ next = 93 ∨ next = 44 then .ok (some i, is_integer)
        else if isAsciiWhitespace next then .ok (some i, is_integer)
        else .error (.invalidCharacter i)

/-- Scan of a numeric literal starting at index `i` (the loop of
`Parser::parse_number` run from the `Start` state with `is_integer =
true`). -/
def num_scan (s : List Nat) (i : Nat) : Except ParseError (Option Nat × Bool) :=
  num_loop s (s.length + 1) i .start true

/-- Digit run of Rust `i64::from_str`: accumulate decimal digits; `none` on
a non-digit byte. -/
def digitsToNat (ds : List Nat) (acc : Nat) : Option Nat :=
  match ds with
  | [] => some acc
  | d :: rest =>
    if 48 ≤ d ∧ d ≤ 57 then digitsToNat rest (acc * 10 + (d - 48)) else none

/-- Model of Rust `str::parse::<i64>`: optional `+`/`-` sign, at least one
decimal digit, and the value must fit in a signed 64-bit integer
(otherwise the parse fails, which `parse_number` surfaces as
`ParseIntError`). -/
def parse_i64 (tok : List Nat) : Option Int :=
  let sd : Bool × List Nat :=
    match tok with
    | 43 :: rest => (false, rest)
    | 45 :: rest => (true, rest)
    | _ => (false, tok)
  match sd.2 with
  | [] => none
  | _ :: _ =>
    match digitsToNat sd.2 0 with
    | none => none
    | some m =>
      let v : Int := if sd.1 then -(m : Int) else (m : Int)
      if -(2 ^ 63 : Int) ≤ v ∧ v ≤ 2 ^ 63 - 1 then some v else none

/-- Method `Parser::parse_number`: run the state machine, then convert the
captured token (`&source[start..end]`; `end` stays at `start` when the
loop ran off the end of the input) with the native integer or float
parse.  The float value is not modelled; `Number.float` keeps the token
(see the header comment). -/
def parse_number (s : List Nat) (i : Nat) : Except ParseError (Number × Nat) :=
  match num_scan s i with
  | .error e => .error e
  | .ok (endOpt, is_integer) =>
    let endIdx := endOpt.getD i
    let finalIdx := match endOpt with | some e => e | none => s.length
    let number := sliceBytes s i endIdx
    if number.isEmpty then .error (.invalidCharacter finalIdx)
    else if is_integer then
      match parse_i64 number with
      | some n => .ok (.int n, finalIdx)
      | none => .error .parseIntError
    else .ok (.float number, finalIdx)

/-- Scan loop of `Parser::parse_string` (after the opening quote has been
consumed): reject raw line breaks, stop at the closing quote, skip the
byte after a backslash.  `start` is the index just after the opening
quote; on success returns the raw (still escaped) slice and the index
after the closing quote.  The fuel-exhaustion branch coincides with the
end-of-input exit; the wrapper's fuel makes it unreachable. -/
def string_scan (s : List Nat) (start : Nat) : Nat → Nat →
    Except ParseError (List Nat × Nat)
  | 0, _ => .error (.unexpectedEOFWhileParsingString start)
  | fuel + 1, i =>
    match s[i]? with
    | none => .error (.unexpectedEOFWhileParsingString start)
    | some next =>
      if next = 10 ∨ next = 13 then .error (.lineBreakWhileParsingString i)
      else if next = 34 then .ok (sliceBytes s start i, i + 1)
      else if next = 92 then string_scan s start fuel (i + 2)
      else string_scan s start fuel (i + 1)

/-- Method `Parser::parse_string`: require an opening `"`, scan to the
closing quote, then unescape the captured slice. -/
def parse_string (s : List Nat) (i : Nat) :
    Except ParseError (List Char × Nat) :=
  match s[i]? with
  | none => .error .unexpectedEOF
  | some b =>
    if b = 34 then
      match string_scan s (i + 1) (s.length + 1) (i + 1) with
      | .error e => .error e
      | .ok (raw, j) =>
        match unescape_string (utf8Chars raw) with
        | .error e => .error e
        | .ok cs => .ok (cs, j)
    else .error (.invalidCharacter i)

mutual

/-- Method `Parser::parse_value`: dispatch on the lookahead byte. -/
def parse_value (s : List Nat) : Nat → Nat → Except ParseError (Value × Nat)
  | 0, _ => .error .unexpectedEOF
  | fuel + 1, i =>
    match s[i]? with
    | none => .error .unexpectedEOF
    | some b =>
      if b = 110 then parse_null s i
      else if b = 116 ∨ b = 102 then
        match parse_boolean s i with
        | .ok (v, j) => .ok (.boolean v, j)
        | .error e => .error e
      else if b = 43 ∨ b = 45 ∨ (48 ≤ b ∧ b ≤ 57) then
        match parse_number s i with
        | .ok (n, j) => .ok (.number n, j)
        | .error e => .error e
      else if b = 34 then
        match parse_string s i with
        | .ok (cs, j) => .ok (.string cs, j)
        | .error e => .error e
      else if b = 91 then
        match parse_array s fuel i with
        | .ok (a, j) => .ok (.array a, j)
        | .error e => .error e
      else if b = 123 then
        match parse_object s fuel i with
        | .ok (o, j) => .ok (.object o, j)
        | .error e => .error e
      else .error (.invalidCharacter i)
termination_by structural fuel _ => fuel

/-- Method `Parser::parse_array`: consume `[`, then run the element loop. -/
def parse_array (s : List Nat) : Nat → Nat →
    Except ParseError (List Value × Nat)
  | 0, _ => .error .unexpectedEOF
  | fuel + 1, i =>
    match s[i]? with
    | none => .error .unexpectedEOF
    | some b =>
      if b = 91 then parse_array_loop s fuel (i + 1) []
      else .error (.invalidCharacter i)
termination_by structural fuel _ => fuel

/-- Element loop of `Parser::parse_array`: `]` closes only an empty array
immediately; a stray `]`/`,` before a value is the (undeclared)
`UnexpectedCommaInArrayOrObject` error; after each value a `,` continues
and a `]` closes. -/
def parse_array_loop (s : List Nat) : Nat → Nat → List Value →
    Except ParseError (List Value × Nat)
  | 0, _, _ => .error .unexpectedEOF
  | fuel + 1, i, array =>
    let i := eat_whitespace s i
    match s[i]? with
    | none => .error .unexpectedEOF
    | some b =>
      if b = 93 ∧ array.isEmpty then .ok (array, i + 1)
      else if b = 93 ∨ b = 44 then .error (.unexpectedCommaInArrayOrObject i)
      else
        match parse_value s fuel i with
        | .error e => .error e
        | .ok (v, j) =>
          let j := eat_whitespace s j
          match s[j]? with
          | none => .error .unexpectedEOF
          | some c =>
            if c = 93 then .ok (array ++ [v], j + 1)
            else if c = 44 then parse_array_loop s fuel (j + 1) (array ++ [v])
            else .error (.invalidCharacter j)
termination_by structural fuel _ _ => fuel

/-- Method `Parser::parse_object`: consume `{`, then run the member loop. -/
def parse_object (s : List Nat) : Nat → Nat →
    Except ParseError (ValueMap × Nat)
  | 0, _ => .error .unexpectedEOF
  | fuel + 1, i =>
    match s[i]? with
    | none => .error .unexpectedEOF
    | some b =>
      if b = 123 then parse_object_loop s fuel (i + 1) []
      else .error (.invalidCharacter i)
termination_by structural fuel _ => fuel

/-- Member loop of `Parser::parse_object`: a `"` begins a key (then `:`,
value, and `,`/`}`); `}` closes only a still-empty object immediately; a
stray `}`/`,` otherwise is the (undeclared) `UnexpectedCommaInArrayOrObject`
error; any other lookahead is `InvalidCharacter`. -/
def parse_object_loop (s : List Nat) : Nat → Nat → ValueMap →
    Except ParseError (ValueMap × Nat)
  | 0, _, _ => .error .unexpectedEOF
  | fuel + 1, i, map =>
    let i := eat_whitespace s i
    match s[i]? with
    | none => .error .unexpectedEOF
    | some b =>
      if b = 34 then
        match parse_string s i with
        | .error e => .error e
        | .ok (key, j) =>
          let j := eat_whitespace s j
          match s[j]? with
          | none => .error .unexpectedEOF
          | some c =>
            if c = 58 then
              let j2 := eat_whitespace s (j + 1)
              match parse_value s fuel j2 with
              | .error e => .error e
              | .ok (v, j3) =>
                let map2 := ValueMap.insert map key v
                let j4 := eat_whitespace s j3
                match s[j4]? with
                | none => .error .unexpectedEOF
                | some d =>
                  if d = 44 then parse_object_loop s fuel (j4 + 1) map2
                  else if d = 125 then .ok (map2, j4 + 1)
                  else .error (.invalidCharacter j4)
            else .error (.invalidCharacter j)
      else if b = 125 ∧ ValueMap.isEmptyMap map then .ok (map, i + 1)
      else if b = 125 ∨ b = 44 then .error (.unexpectedCommaInArrayOrObject i)
      else .error (.invalidCharacter i)
termination_by structural fuel _ _ => fuel

end

/-- Implementation of `FromStr for Value` (src/parse.rs): skip leading
whitespace, parse one value, skip trailing whitespace, require end of
input.  The fuel `3 * (s.length + 1)` dominates the recursion depth of
the mutual parsers: along any call path, at most three nested calls are
made per input byte consumed. -/
def from_str (s : List Nat) : Except ParseError Value :=
  let i := eat_whitespace s 0
  match parse_value s (3 * (s.length + 1)) i with
  | .error e => .error e
  | .ok (res, j) =>
    let j2 := eat_whitespace s j
    if j2 < s.length then .error (.invalidCharacter j2) else .ok res

/-- Method `Value::len` (src/lib.rs): `String::len` is the UTF-8 byte
count (the sum of `Char.utf8Size` over the characters), `Vec::len` and
`ValueMap::len` are element counts, and every other variant reports 0. -/
def Value.len (v : Value) : Nat :=
  match v with
  | .string cs => (cs.map Char.utf8Size).sum
  | .array a => a.length
  | .object o => o.length
  | _ => 0

/-- Implementation `<usize as IndexOrKey>::get_or_insert` (src/lib.rs lines
170-178): panics (`none`) unless the value already is an `Array`, and then
indexes it (`&mut array[self]`, which panics when out of bounds).  There
is no `Null` to `Array` conversion and no extension in the code.  On
success returns the (unchanged) value together with the element the
returned mutable reference points at. -/
def usize_get_or_insert (idx : Nat) (v : Value) : Option (Value × Value) :=
  match v with
  | .array a =>
    match a[idx]? with
    | some x => some (.array a, x)
    | none => none
  | _ => none

/-- Implementation `<&str as IndexOrKey>::get_or_insert` (src/lib.rs lines
199-208): a `Null` is first replaced by an empty `Object`; then panics
(`none`) unless the value is an `Object`, and returns
`entry(key).or_insert(Null)`.  On success returns the updated value
together with the entry the returned mutable reference points at. -/
def str_get_or_insert (key : List Char) (v : Value) : Option (Value × Value) :=
  let v2 := match v with
    | .null => Value.object []
    | other => other
  match v2 with
  | .object o =>
    let r := ValueMap.entryOrInsertNull o key
    some (.object r.1, r.2)
  | _ => none

/-- Implementation `<Value as IndexMut>::index_mut` for a `usize` index
(src/lib.rs lines 318-322): delegates to `get_or_insert`. -/
def index_mut_usize (v : Value) (idx : Nat) : Option (Value × Value) :=
  usize_get_or_insert idx v

/-- Implementation `<Value as IndexMut>::index_mut` for a string key
(src/lib.rs lines 318-322): delegates to `get_or_insert`. -/
def index_mut_key (v : Value) (key : List Char) : Option (Value × Value) :=
  str_get_or_insert key v

/-! ### Generic helper lemmas -/

theorem lor_shift_add {n : Nat} : ∀ a b : Nat, b < 2 ^ n →
    (a <<< n) ||| b = a * 2 ^ n + b := by
  induction n with
  | zero =>
    intro a b hb
    interval_cases b
    simp [Nat.shiftLeft_eq]
  | succ n ih =>
    intro a b hb
    have hd : Nat.bit (Nat.bodd b) (Nat.div2 b) = b := Nat.bit_decomp b
    have h1 : a <<< (n + 1) = Nat.bit false (a <<< n) := by
      simp [Nat.bit, Nat.shiftLeft_eq, Nat.pow_succ]
      ring
    rw [h1, ← hd, Nat.lor_bit]
    have hdiv : Nat.div2 b < 2 ^ n := by
      have hiff := Nat.bit_lt_two_pow_succ_iff (b := Nat.bodd b) (x := Nat.div2 b) (n := n)
      rw [hd] at hiff
      exact hiff.mp hb
    rw [ih a (Nat.div2 b) hdiv]
    have hval : ∀ (c : Bool) (m : Nat), Nat.bit c m = 2 * m + c.toNat := Nat.bit_val
    have hb2 : (Nat.bodd b).toNat + 2 * Nat.div2 b = b := Nat.bodd_add_div2 b
    rw [Bool.false_or, hval]
    have hp : a * 2 ^ (n + 1) = 2 * (a * 2 ^ n) := by ring
    rw [hp]
    generalize (2 : Nat) ^ n = p at *
    generalize a * p = q at *
    cases b.bodd <;> simp_all <;> omega

theorem utf8Size_of_ascii (c : Char) (h : c.toNat < 128) : c.utf8Size = 1 := by
  simp [Char.utf8Size]
  intro hc
  exfalso
  rw [UInt32.lt_def, BitVec.lt_def] at hc
  change c.val.toNat < 128 at h
  simp [UInt32.toNat] at h
  have h127 : ((127 : UInt32).toBitVec).toNat = 127 := rfl
  omega

theorem toNat_ofNat_of_ascii (b : Nat) (h : b < 128) : (Char.ofNat b).toNat = b := by
  rw [Char.ofNat, dif_pos (Or.inl (by omega : b < 55296))]
  simp [Char.ofNatAux, Char.toNat, UInt32.toNat, UInt32.ofNat']

theorem drop_cons_of_drop {α : Type} (s : List α) (i : Nat) (b : α) (tl : List α)
    (h : s.drop i = b :: tl) : s[i]? = some b ∧ s.drop (i + 1) = tl := by
  constructor
  · have h0 : (s.drop i)[0]? = s[i + 0]? := List.getElem?_drop s i 0
    rw [h] at h0
    simpa using h0.symm
  · have h1 : (s.drop i).drop 1 = s.drop (i + 1) := List.drop_drop 1 i s
    rw [← h1, h]
    rfl

theorem getElem?_some_lt {α : Type} {s : List α} {i : Nat} {b : α}
    (h : s[i]? = some b) : i < s.length := by
  rcases List.getElem?_eq_some.mp h with ⟨hlt, _⟩
  exact hlt

theorem sliceBytes_self (s : List Nat) (i : Nat) : sliceBytes s i i = [] := by
  simp [sliceBytes]

theorem sliceBytes_snoc (s : List Nat) (a i : Nat) (b : Nat)
    (hget : s[i]? = some b) (ha : a ≤ i) :
    sliceBytes s a (i + 1) = sliceBytes s a i ++ [b] := by
  unfold sliceBytes
  have h1 : i + 1 - a = (i - a) + 1 := by omega
  rw [h1, List.take_succ]
  have h2 : (s.drop a)[i - a]? = s[a + (i - a)]? := List.getElem?_drop s a (i - a)
  have h3 : a + (i - a) = i := by omega
  rw [h3] at h2
  rw [h2, hget]
  rfl

/-! ### C9 and C10: concrete container and number inputs -/

/-- C9: parsing `"[]"` and `"{}"` succeeds with empty containers, while
`"[,]"`, `"[1,]"`, `"{,}"` and `'{"a":1,}'` all fail (with the stray-comma
error the code raises for them). -/
theorem C9_empty_containers_and_stray_commas :
    from_str ("[]".data.map Char.toNat) = .ok (.array []) ∧
    from_str ("\x7b\x7d".data.map Char.toNat) = .ok (.object []) ∧
    from_str ("[,]".data.map Char.toNat) =
      .error (.unexpectedCommaInArrayOrObject 1) ∧
    from_str ("[1,]".data.map Char.toNat) =
      .error (.unexpectedCommaInArrayOrObject 3) ∧
    from_str ("\x7b,\x7d".data.map Char.toNat) =
      .error (.unexpectedCommaInArrayOrObject 1) ∧
    from_str ("\x7b\"a\":1,\x7d".data.map Char.toNat) =
      .error (.unexpectedCommaInArrayOrObject 7) :=
  ⟨rfl, rfl, rfl, rfl, rfl, rfl⟩

/-- C10: the malformed numeric literals `"01"`, `"1."`, `".1"`, `"1e"` and
`"1e+"` are all rejected as top-level values.  `"01"` fails at the digit
after the leading zero and `".1"` at the leading dot; `"1."`, `"1e"` and
`"1e+"` run off the end of the input mid-literal, which surfaces as the
empty-capture `InvalidCharacter` error at the end index. -/
theorem C10_malformed_numbers_rejected :
    from_str ("01".data.map Char.toNat) = .error (.invalidCharacter 1) ∧
    from_str ("1.".data.map Char.toNat) = .error (.invalidCharacter 2) ∧
    from_str (".1".data.map Char.toNat) = .error (.invalidCharacter 0) ∧
    from_str ("1e".data.map Char.toNat) = .error (.invalidCharacter 2) ∧
    from_str ("1e+".data.map Char.toNat) = .error (.invalidCharacter 3) :=
  ⟨rfl, rfl, rfl, rfl, rfl⟩

/-! ### C4: the error kinds surfaced to callers -/

/-- C4: `Parser::parse_array` and `Parser::parse_object` surface
`ParseError::UnexpectedCommaInArrayOrObject` (src/parse.rs lines 433 and
494), an error kind that `error.rs` never declares and that is outside the
seven kinds listed by the claim: the inputs `"[,]"` and `"{,}"` reach
exactly those two expressions. -/
theorem C4_undeclared_error_variant_surfaced :
    from_str ("[,]".data.map Char.toNat) =
      .error (.unexpectedCommaInArrayOrObject 1) ∧
    from_str ("\x7b,\x7d".data.map Char.toNat) =
      .error (.unexpectedCommaInArrayOrObject 1) :=
  ⟨rfl, rfl⟩

/-! ### C2: mutable indexing / get_or_insert -/

/-- C2 counterexample: mutable indexing a `Null` by a `usize` position does
not auto-vivify an `Array`; `<usize as IndexOrKey>::get_or_insert` hits
`panic!("Not an array.")` (modelled as `none`) on a `Null` value. -/
theorem C2_counterexample :
    index_mut_usize Value.null 0 = none ∧
    usize_get_or_insert 0 Value.null = none :=
  ⟨rfl, rfl⟩

/-- C2 (amended): mutable indexing by a `usize` position panics on `Null`
(no `Null` to `Array` conversion exists in the `usize` implementation) and
on an out-of-range position of an `Array` (no extension); in bounds it
returns the addressed element and leaves the value unchanged.  Mutable
indexing a `Null` by a string key does convert it into an empty `Object`
and returns the newly inserted `Null` entry.  `IndexMut::index_mut`
delegates to `get_or_insert` for both index kinds. -/
theorem C2_mutable_indexing :
    (∀ n : Nat, usize_get_or_insert n Value.null = none) ∧
    (∀ (a : List Value) (n : Nat) (h : n < a.length),
       usize_get_or_insert n (Value.array a) = some (Value.array a, a[n])) ∧
    (∀ (a : List Value) (n : Nat), a.length ≤ n →
       usize_get_or_insert n (Value.array a) = none) ∧
    (∀ k : List Char, str_get_or_insert k Value.null =
       some (Value.object [(k, Value.null)], Value.null)) ∧
    (∀ (v : Value) (n : Nat), index_mut_usize v n = usize_get_or_insert n v) ∧
    (∀ (v : Value) (k : List Char), index_mut_key v k = str_get_or_insert k v) := by
  refine ⟨fun n => rfl, ?_, ?_, fun k => rfl, fun v n => rfl, fun v k => rfl⟩
  · intro a n h
    simp [usize_get_or_insert, List.getElem?_eq_getElem h]
  · intro a n h
    simp [usize_get_or_insert, List.getElem?_eq_none h]

/-- Witness for C2: in-bounds indexing of an existing one-element array. -/
theorem C2_mutable_indexing_witness :
    usize_get_or_insert 0 (Value.array [Value.null]) =
      some (Value.array [Value.null], Value.null) :=
  C2_mutable_indexing.2.1 [Value.null] 0 (by decide)

/-! ### C3: Value::len -/

/-- C3 counterexample: `len` of a `String` is its UTF-8 byte count, not its
character count: the one-character string `"é"` (two UTF-8 bytes) has
`len = 2` while its character count is 1. -/
theorem C3_counterexample :
    (Value.string ['é']).len = 2 ∧ (['é'] : List Char).length = 1 :=
  ⟨rfl, rfl⟩

/-- C3 (amended): `len` returns the UTF-8 byte count for `String` (which
equals the character count exactly when every character is ASCII), the
element count for `Array` and `Object`, and zero for `Null`, `Boolean` and
`Number`. -/
theorem C3_len :
    (∀ cs : List Char, (Value.string cs).len = (cs.map Char.utf8Size).sum) ∧
    (∀ cs : List Char, (∀ c ∈ cs, c.toNat < 128) →
       (Value.string cs).len = cs.length) ∧
    (∀ a : List Value, (Value.array a).len = a.length) ∧
    (∀ o : ValueMap, (Value.object o).len = o.length) ∧
    Value.len Value.null = 0 ∧
    (∀ b : Bool, (Value.boolean b).len = 0) ∧
    (∀ n : Number, (Value.number n).len = 0) := by
  refine ⟨fun cs => rfl, ?_, fun a => rfl, fun o => rfl, rfl,
    fun b => rfl, fun n => rfl⟩
  intro cs h
  induction cs with
  | nil => rfl
  | cons c rest ih =>
    have hc : c.utf8Size = 1 := utf8Size_of_ascii c (h c (List.mem_cons_self c rest))
    have hr := ih (fun x hx => h x (List.mem_cons_of_mem c hx))
    simp only [Value.len, List.map_cons, List.sum_cons, List.length_cons, hc] at *
    omega

/-- Witness for C3: an ASCII string, where byte count and character count
agree. -/
theorem C3_len_witness :
    (Value.string ['a', 'b']).len = (['a', 'b'] : List Char).length :=
  C3_len.2.1 ['a', 'b'] (by decide)

/-! ### C1: numeric literals at end of input -/

set_option maxHeartbeats 1000000 in
theorem num_loop_no_terminator (s : List Nat) :
    ∀ (fuel i : Nat) (st : NumState) (isInt : Bool) (endI : Nat) (isInt2 : Bool),
      (∀ b ∈ s.drop i, isNumberTerminator b = false) →
      num_loop s fuel i st isInt ≠ .ok (some endI, isInt2) := by
  intro fuel
  induction fuel with
  | zero =>
    intro i st isInt endI isInt2 hno hc
    simp [num_loop] at hc
  | succ fuel ih =>
    intro i st isInt endI isInt2 hno hc
    cases hgi : s[i]? with
    | none => simp [num_loop, hgi] at hc
    | some b =>
      have hmem : b ∈ s.drop i := by
        have h0 : (s.drop i)[0]? = s[i + 0]? := List.getElem?_drop s i 0
        rw [Nat.add_zero, hgi] at h0
        exact List.getElem?_mem h0
      have hbt := hno b hmem
      simp only [isNumberTerminator, Bool.or_eq_false_iff,
        beq_eq_false_iff_ne, ne_eq] at hbt
      have hdrop : ∀ c ∈ s.drop (i + 1), isNumberTerminator c = false := by
        intro c hcmem
        apply hno
        have h1 : (s.drop i).drop 1 = s.drop (i + 1) := List.drop_drop 1 i s
        rw [← h1] at hcmem
        exact List.mem_of_mem_drop hcmem
      cases st <;>
        simp only [num_loop, hgi] at hc <;>
        split_ifs at hc <;>
        first
          | exact ih (i + 1) _ _ endI isInt2 hdrop hc
          | simp_all

/-- C1 counterexample: the grammar-conformant literal
`"9223372036854775807"` immediately followed by end of input does NOT
parse: the number loop never records the capture end when it runs off the
end of the input, so the captured token is empty and the top-level parse
fails with `InvalidCharacter` at index 19. -/
theorem C1_counterexample :
    from_str ("9223372036854775807".data.map Char.toNat) =
      .error (.invalidCharacter 19) :=
  rfl

/-- C1 (amended): a numeric literal immediately followed by end of input is
never accepted — whenever no terminator byte (`}`, `]`, `,` or whitespace)
occurs in the rest of the input, `parse_number` fails, because the capture
end is only assigned on a terminator byte.  With an explicit terminator
after it, the same literal is captured whole: `"9223372036854775807 "`
(trailing space) parses to `Int` equal to the 64-bit signed integer
maximum. -/
theorem C1_number_eof_behavior :
    (∀ (s : List Nat) (i : Nat),
       (∀ b ∈ s.drop i, isNumberTerminator b = false) →
       ∃ e, parse_number s i = .error e) ∧
    from_str ("9223372036854775807 ".data.map Char.toNat) =
      .ok (.number (.int 9223372036854775807)) := by
  constructor
  · intro s i hno
    cases hscan : num_scan s i with
    | error e => exact ⟨e, by simp [parse_number, hscan]⟩
    | ok r =>
      obtain ⟨endOpt, isInt⟩ := r
      cases endOpt with
      | some e2 =>
        exact absurd hscan
          (num_loop_no_terminator s (s.length + 1) i .start true e2 isInt hno)
      | none =>
        refine ⟨.invalidCharacter s.length, ?_⟩
        simp [parse_number, hscan, sliceBytes]
  · rfl

/-- Witness for C1: the single-digit input `"1"` with nothing after it
makes `parse_number` fail. -/
theorem C1_number_eof_behavior_witness :
    ∃ e, parse_number [49] 0 = .error e :=
  C1_number_eof_behavior.1 [49] 0 (by decide)

/-! ### C6 and C5: the string scanner -/

theorem string_scan_eof (s : List Nat) (start fuel i : Nat) (h : s.length ≤ i) :
    string_scan s start fuel i =
      .error (.unexpectedEOFWhileParsingString start) := by
  cases fuel with
  | zero => rfl
  | succ fuel => simp [string_scan, List.getElem?_eq_none h]

theorem string_scan_clean (s : List Nat) (start : Nat) :
    ∀ (mid : List Nat) (fuel i : Nat) (tl : List Nat),
      s.drop i = mid ++ tl →
      (∀ b ∈ mid, b ≠ 10 ∧ b ≠ 13 ∧ b ≠ 34 ∧ b ≠ 92) →
      s.length ≤ i + fuel →
      ∃ fuel2, string_scan s start fuel i =
          string_scan s start fuel2 (i + mid.length) ∧
        s.length ≤ (i + mid.length) + fuel2 := by
  intro mid
  induction mid with
  | nil =>
    intro fuel i tl hdrop hmid hfuel
    exact ⟨fuel, by simp, by simpa using hfuel⟩
  | cons b mid ih =>
    intro fuel i tl hdrop hmid hfuel
    obtain ⟨hget, hdrop2⟩ :=
      drop_cons_of_drop s i b (mid ++ tl) (by simpa using hdrop)
    have hlt : i < s.length := getElem?_some_lt hget
    cases fuel with
    | zero => omega
    | succ fuel =>
      obtain ⟨hb10, hb13, hb34, hb92⟩ := hmid b (List.mem_cons_self b mid)
      have hstep : string_scan s start (fuel + 1) i =
          string_scan s start fuel (i + 1) := by
        simp [string_scan, hget, hb10, hb13, hb34, hb92]
      obtain ⟨fuel2, heq, hle⟩ := ih fuel (i + 1) tl hdrop2
        (fun c hc => hmid c (List.mem_cons_of_mem b hc)) (by omega)
      have harith : (i + 1) + mid.length = i + (b :: mid).length := by
        simp [List.length_cons]
        omega
      refine ⟨fuel2, ?_, ?_⟩
      · rw [hstep, heq, harith]
      · rw [← harith]
        exact hle

/-- C6: a raw unescaped newline or carriage return inside a quoted string
(not preceded by a backslash) fails with `LineBreakWhileParsingString` at
that byte's index, and an unterminated quoted string fails with
`UnexpectedEOFWhileParsingString` carrying the index just after the opening
quote.  `mid` is the string content scanned before the offending position:
free of line breaks, quotes and backslashes. -/
theorem C6_string_linebreak_and_eof :
    ∀ (pre mid : List Nat) (c : Nat) (rest : List Nat),
      (c = 10 ∨ c = 13) →
      (∀ b ∈ mid, b ≠ 10 ∧ b ≠ 13 ∧ b ≠ 34 ∧ b ≠ 92) →
      parse_string (pre ++ 34 :: (mid ++ c :: rest)) pre.length =
        .error (.lineBreakWhileParsingString (pre.length + 1 + mid.length)) ∧
      parse_string (pre ++ 34 :: mid) pre.length =
        .error (.unexpectedEOFWhileParsingString (pre.length + 1)) := by
  intro pre mid c rest hc hmid
  constructor
  · set s := pre ++ 34 :: (mid ++ c :: rest) with hs
    set i := pre.length with hi
    have hdrop0 : s.drop i = 34 :: (mid ++ c :: rest) := List.drop_left pre _
    obtain ⟨hq, hdrop1⟩ := drop_cons_of_drop s i 34 _ hdrop0
    obtain ⟨fuel2, heq, hle⟩ := string_scan_clean s (i + 1) mid (s.length + 1)
      (i + 1) (c :: rest) hdrop1 hmid (by omega)
    have hdrop2 : s.drop ((i + 1) + mid.length) = c :: rest := by
      have h1 : (s.drop (i + 1)).drop mid.length = s.drop ((i + 1) + mid.length) :=
        List.drop_drop mid.length (i + 1) s
      rw [← h1, hdrop1, List.drop_left mid _]
    obtain ⟨hgetc, _⟩ := drop_cons_of_drop s ((i + 1) + mid.length) c rest hdrop2
    have hlt2 : (i + 1) + mid.length < s.length := getElem?_some_lt hgetc
    cases fuel2 with
    | zero => omega
    | succ fuel2 =>
      have hstep : string_scan s (i + 1) (fuel2 + 1) ((i + 1) + mid.length) =
          .error (.lineBreakWhileParsingString ((i + 1) + mid.length)) := by
        simp [string_scan, hgetc, hc]
      simp only [parse_string, hq, if_pos rfl, heq, hstep]
      simp
  · set s := pre ++ 34 :: mid with hs
    set i := pre.length with hi
    have hdrop0 : s.drop i = 34 :: mid := List.drop_left pre _
    obtain ⟨hq, hdrop1⟩ := drop_cons_of_drop s i 34 _ hdrop0
    have hdrop1' : s.drop (i + 1) = mid ++ [] := by simpa using hdrop1
    obtain ⟨fuel2, heq, hle⟩ := string_scan_clean s (i + 1) mid (s.length + 1)
      (i + 1) [] hdrop1' hmid (by omega)
    have hdrop2 : s.drop ((i + 1) + mid.length) = [] := by
      have h1 : (s.drop (i + 1)).drop mid.length = s.drop ((i + 1) + mid.length) :=
        List.drop_drop mid.length (i + 1) s
      rw [← h1, hdrop1]
      exact List.drop_length mid
    have hlen : s.length ≤ (i + 1) + mid.length := by
      have := List.drop_eq_nil_iff.mp hdrop2
      exact this
    have heof := string_scan_eof s (i + 1) fuel2 ((i + 1) + mid.length) hlen
    simp only [parse_string, hq, if_pos rfl, heq, heof]
    simp

/-- Witness for C6: the inputs `"\"a` + newline and `"\"a` (unterminated). -/
theorem C6_string_linebreak_and_eof_witness :
    parse_string [34, 97, 10] 0 = .error (.lineBreakWhileParsingString 2) ∧
    parse_string [34, 97] 0 = .error (.unexpectedEOFWhileParsingString 1) :=
  C6_string_linebreak_and_eof [] [97] 10 [] (Or.inl rfl) (by decide)

/-! ### C7: unescape_string -/

theorem char_le_toNat {a b : Char} (h : a ≤ b) : a.toNat ≤ b.toNat := by
  rw [Char.le_def, UInt32.le_def, BitVec.le_def] at h
  exact h

theorem hex_value_lt {c : Char} {v : Nat} (h : hex_value c = some v) : v < 16 := by
  unfold hex_value at h
  split_ifs at h with h1 h2 h3 <;> injection h with h <;> subst h
  · have ha := char_le_toNat h1.2
    have h9 : ('9' : Char).toNat = 57 := rfl
    have h0 : ('0' : Char).toNat = 48 := rfl
    omega
  · have ha := char_le_toNat h2.2
    have hf : ('f' : Char).toNat = 102 := rfl
    have hw : ('W' : Char).toNat = 87 := rfl
    omega
  · have ha := char_le_toNat h3.2
    have hf : ('F' : Char).toNat = 70 := rfl
    have h7 : ('7' : Char).toNat = 55 := rfl
    omega

theorem unescape_not_backslash (c : Char) (h : c ≠ '\\') (xs : List Char) :
    unescape_string (c :: xs) =
      Except.map (fun buf => c :: buf) (unescape_string xs) := by
  rw [unescape_string, if_pos h]
  cases unescape_string xs <;> rfl

theorem unescape_backslash (xs : List Char) :
    unescape_string ('\\' :: xs) = unescape_escaped xs := by
  rw [unescape_string, if_neg (by simp)]

theorem unescape_known_escapes (xs : List Char) :
    unescape_string ('\\' :: 'f' :: xs) =
      Except.map (fun b => '\u000c' :: b) (unescape_string xs) ∧
    unescape_string ('\\' :: 'b' :: xs) =
      Except.map (fun b => '\u0008' :: b) (unescape_string xs) ∧
    unescape_string ('\\' :: 'n' :: xs) =
      Except.map (fun b => '\n' :: b) (unescape_string xs) ∧
    unescape_string ('\\' :: 'r' :: xs) =
      Except.map (fun b => '\r' :: b) (unescape_string xs) ∧
    unescape_string ('\\' :: 't' :: xs) =
      Except.map (fun b => '\t' :: b) (unescape_string xs) := by
  refine ⟨?_, ?_, ?_, ?_, ?_⟩ <;>
    · rw [unescape_backslash, unescape_escaped]
      cases unescape_string xs <;> rfl

theorem unescape_other_escape (c : Char)
    (h : c ∉ (['f', 'b', 'n', 'r', 't', 'u'] : List Char)) (xs : List Char) :
    unescape_string ('\\' :: c :: xs) =
      Except.map (fun buf => c :: buf) (unescape_string xs) := by
  simp only [List.mem_cons, List.mem_singleton, not_or] at h
  obtain ⟨hf, hb, hn, hr, ht, hu, -⟩ := h
  rw [unescape_backslash, unescape_escaped, if_neg hf, if_neg hb, if_neg hn,
    if_neg hr, if_neg ht, if_neg hu]
  cases unescape_string xs <;> rfl

theorem unescape_u_dispatch (rest2 : List Char) :
    unescape_string ('\\' :: 'u' :: rest2) = unescape_u rest2 := by
  rw [unescape_backslash, unescape_escaped]
  rfl

theorem unescape_u_escape (d1 d2 d3 d4 : Char) (v1 v2 v3 v4 : Nat)
    (h1 : hex_value d1 = some v1) (h2 : hex_value d2 = some v2)
    (h3 : hex_value d3 = some v3) (h4 : hex_value d4 = some v4)
    (xs : List Char) :
    unescape_string ('\\' :: 'u' :: d1 :: d2 :: d3 :: d4 :: xs) =
      match from_u32 (4096 * v1 + 256 * v2 + 16 * v3 + v4) with
      | none => .error .invalidEscapeSequence
      | some res => Except.map (fun buf => res :: buf) (unescape_string xs) := by
  have hv2 := hex_value_lt h2
  have hv3 := hex_value_lt h3
  have hv4 := hex_value_lt h4
  have ecomb : ((((((0 ||| v1) <<< 4) ||| v2) <<< 4) ||| v3) <<< 4) ||| v4 =
      4096 * v1 + 256 * v2 + 16 * v3 + v4 := by
    rw [Nat.zero_or, lor_shift_add v1 v2 (by simpa using hv2),
      lor_shift_add _ v3 (by simpa using hv3),
      lor_shift_add _ v4 (by simpa using hv4)]
    ring
  have hcomb2 : ((((0 ||| v1) <<< 4) ||| v2) <<< 4 ||| v3) <<< 4 ||| v4 =
      4096 * v1 + 256 * v2 + 16 * v3 + v4 := ecomb
  rw [unescape_u_dispatch, unescape_u, h1]
  conv_lhs => whnf
  rw [h2]
  conv_lhs => whnf
  rw [h3]
  conv_lhs => whnf
  rw [h4]
  conv_lhs => whnf
  rw [hcomb2]
  cases from_u32 (4096 * v1 + 256 * v2 + 16 * v3 + v4) with
  | none => rfl
  | some res => cases unescape_string xs <;> rfl

theorem unescape_u_invalid_hex (tail : List Char) :
    (∀ d1 : Char, hex_value d1 = none →
       unescape_string ('\\' :: 'u' :: d1 :: tail) = .error .invalidHex) ∧
    (∀ (d1 d2 : Char) (v1 : Nat), hex_value d1 = some v1 → hex_value d2 = none →
       unescape_string ('\\' :: 'u' :: d1 :: d2 :: tail) = .error .invalidHex) ∧
    (∀ (d1 d2 d3 : Char) (v1 v2 : Nat), hex_value d1 = some v1 →
       hex_value d2 = some v2 → hex_value d3 = none →
       unescape_string ('\\' :: 'u' :: d1 :: d2 :: d3 :: tail) =
         .error .invalidHex) ∧
    (∀ (d1 d2 d3 d4 : Char) (v1 v2 v3 : Nat), hex_value d1 = some v1 →
       hex_value d2 = some v2 → hex_value d3 = some v3 → hex_value d4 = none →
       unescape_string ('\\' :: 'u' :: d1 :: d2 :: d3 :: d4 :: tail) =
         .error .invalidHex) := by
  refine ⟨?_, ?_, ?_, ?_⟩
  · intro d1 h1
    rw [unescape_u_dispatch, unescape_u, h1]
  · intro d1 d2 v1 h1 h2
    rw [unescape_u_dispatch, unescape_u, h1]
    conv_lhs => whnf
    rw [h2]
  · intro d1 d2 d3 v1 v2 h1 h2 h3
    rw [unescape_u_dispatch, unescape_u, h1]
    conv_lhs => whnf
    rw [h2]
    conv_lhs => whnf
    rw [h3]
  · intro d1 d2 d3 d4 v1 v2 v3 h1 h2 h3 h4
    rw [unescape_u_dispatch, unescape_u, h1]
    conv_lhs => whnf
    rw [h2]
    conv_lhs => whnf
    rw [h3]
    conv_lhs => whnf
    rw [h4]

theorem unescape_u_eof :
    unescape_string ['\\', 'u'] = .error .unexpectedEOF ∧
    (∀ (d1 : Char) (v1 : Nat), hex_value d1 = some v1 →
       unescape_string ['\\', 'u', d1] = .error .unexpectedEOF) ∧
    (∀ (d1 d2 : Char) (v1 v2 : Nat), hex_value d1 = some v1 →
       hex_value d2 = some v2 →
       unescape_string ['\\', 'u', d1, d2] = .error .unexpectedEOF) ∧
    (∀ (d1 d2 d3 : Char) (v1 v2 v3 : Nat), hex_value d1 = some v1 →
       hex_value d2 = some v2 → hex_value d3 = some v3 →
       unescape_string ['\\', 'u', d1, d2, d3] = .error .unexpectedEOF) := by
  refine ⟨rfl, ?_, ?_, ?_⟩
  · intro d1 v1 h1
    rw [unescape_u_dispatch, unescape_u, h1]
    rfl
  · intro d1 d2 v1 v2 h1 h2
    rw [unescape_u_dispatch, unescape_u, h1]
    conv_lhs => whnf
    rw [h2]
    rfl
  · intro d1 d2 d3 v1 v2 v3 h1 h2 h3
    rw [unescape_u_dispatch, unescape_u, h1]
    conv_lhs => whnf
    rw [h2]
    conv_lhs => whnf
    rw [h3]
    rfl

/-- C7: behaviour of `unescape_string` on every escape form: the five known
single-character escapes; any other escaped character passed through
literally; `\u` with four hex digits combined most-significant-first into a
16-bit value fed to `char::from_u32` (whose only failures below 0x10000 are
the surrogates, giving `InvalidEscapeSequence`); a non-hex character in any
of the four digit positions giving `InvalidHex`; and exhaustion of the
input before the four digits are read giving `UnexpectedEOF`. -/
theorem C7_unescape_escapes :
    (∀ xs : List Char,
       unescape_string ('\\' :: 'f' :: xs) =
         Except.map (fun b => '\u000c' :: b) (unescape_string xs) ∧
       unescape_string ('\\' :: 'b' :: xs) =
         Except.map (fun b => '\u0008' :: b) (unescape_string xs) ∧
       unescape_string ('\\' :: 'n' :: xs) =
         Except.map (fun b => '\n' :: b) (unescape_string xs) ∧
       unescape_string ('\\' :: 'r' :: xs) =
         Except.map (fun b => '\r' :: b) (unescape_string xs) ∧
       unescape_string ('\\' :: 't' :: xs) =
         Except.map (fun b => '\t' :: b) (unescape_string xs)) ∧
    (∀ (c : Char) (xs : List Char),
       c ∉ (['f', 'b', 'n', 'r', 't', 'u'] : List Char) →
       unescape_string ('\\' :: c :: xs) =
         Except.map (fun b => c :: b) (unescape_string xs)) ∧
    (∀ (d1 d2 d3 d4 : Char) (v1 v2 v3 v4 : Nat) (xs : List Char),
       hex_value d1 = some v1 → hex_value d2 = some v2 →
       hex_value d3 = some v3 → hex_value d4 = some v4 →
       unescape_string ('\\' :: 'u' :: d1 :: d2 :: d3 :: d4 :: xs) =
         match from_u32 (4096 * v1 + 256 * v2 + 16 * v3 + v4) with
         | none => .error .invalidEscapeSequence
         | some res => Except.map (fun b => res :: b) (unescape_string xs)) ∧
    (∀ n : Nat, n < 65536 → (from_u32 n = none ↔ 55296 ≤ n ∧ n ≤ 57343)) ∧
    (∀ (d1 : Char) (tail : List Char), hex_value d1 = none →
       unescape_string ('\\' :: 'u' :: d1 :: tail) = .error .invalidHex) ∧
    (∀ (d1 d2 : Char) (v1 : Nat) (tail : List Char),
       hex_value d1 = some v1 → hex_value d2 = none →
       unescape_string ('\\' :: 'u' :: d1 :: d2 :: tail) =
         .error .invalidHex) ∧
    (∀ (d1 d2 d3 : Char) (v1 v2 : Nat) (tail : List Char),
       hex_value d1 = some v1 → hex_value d2 = some v2 →
       hex_value d3 = none →
       unescape_string ('\\' :: 'u' :: d1 :: d2 :: d3 :: tail) =
         .error .invalidHex) ∧
    (∀ (d1 d2 d3 d4 : Char) (v1 v2 v3 : Nat) (tail : List Char),
       hex_value d1 = some v1 → hex_value d2 = some v2 →
       hex_value d3 = some v3 → hex_value d4 = none →
       unescape_string ('\\' :: 'u' :: d1 :: d2 :: d3 :: d4 :: tail) =
         .error .invalidHex) ∧
    unescape_string ['\\', 'u'] = .error .unexpectedEOF ∧
    (∀ (d1 : Char) (v1 : Nat), hex_value d1 = some v1 →
       unescape_string ['\\', 'u', d1] = .error .unexpectedEOF) ∧
    (∀ (d1 d2 : Char) (v1 v2 : Nat),
       hex_value d1 = some v1 → hex_value d2 = some v2 →
       unescape_string ['\\', 'u', d1, d2] = .error .unexpectedEOF) ∧
    (∀ (d1 d2 d3 : Char) (v1 v2 v3 : Nat),
       hex_value d1 = some v1 → hex_value d2 = some v2 →
       hex_value d3 = some v3 →
       unescape_string ['\\', 'u', d1, d2, d3] = .error .unexpectedEOF) := by
  refine ⟨unescape_known_escapes, fun c xs h => unescape_other_escape c h xs,
    fun d1 d2 d3 d4 v1 v2 v3 v4 xs h1 h2 h3 h4 =>
      unescape_u_escape d1 d2 d3 d4 v1 v2 v3 v4 h1 h2 h3 h4 xs,
    ?_, fun d1 tail h1 => (unescape_u_invalid_hex tail).1 d1 h1,
    fun d1 d2 v1 tail h1 h2 => (unescape_u_invalid_hex tail).2.1 d1 d2 v1 h1 h2,
    fun d1 d2 d3 v1 v2 tail h1 h2 h3 =>
      (unescape_u_invalid_hex tail).2.2.1 d1 d2 d3 v1 v2 h1 h2 h3,
    fun d1 d2 d3 d4 v1 v2 v3 tail h1 h2 h3 h4 =>
      (unescape_u_invalid_hex tail).2.2.2 d1 d2 d3 d4 v1 v2 v3 h1 h2 h3 h4,
    unescape_u_eof.1, unescape_u_eof.2.1, unescape_u_eof.2.2.1,
    unescape_u_eof.2.2.2⟩
  intro n hn
  unfold from_u32
  constructor
  · intro h
    by_contra hc
    rw [if_pos] at h
    · exact Option.noConfusion h
    · omega
  · intro h
    rw [if_neg]
    omega

/-- Witness for C7: concrete escapes, a valid `A`, the lone surrogate
`\ud800`, a non-hex digit, a truncated sequence, and a pass-through. -/
theorem C7_unescape_escapes_witness :
    unescape_string ['\\', 'u', '0', '0', '4', '1'] = .ok ['A'] ∧
    unescape_string ['\\', 'u', 'd', '8', '0', '0'] =
      .error .invalidEscapeSequence ∧
    unescape_string ['\\', 'u', 'z', '0', '0', '0'] = .error .invalidHex ∧
    unescape_string ['\\', 'u', '0'] = .error .unexpectedEOF ∧
    unescape_string ['\\', 'q'] = .ok ['q'] ∧
    unescape_string ['\\', 'n'] = .ok ['\n'] := by
  refine ⟨?_, ?_, ?_, ?_, ?_, ?_⟩
  · have h := C7_unescape_escapes.2.2.1 '0' '0' '4' '1' 0 0 4 1 [] rfl rfl rfl rfl
    simpa [from_u32, Except.map, unescape_string] using h
  · have h := C7_unescape_escapes.2.2.1 'd' '8' '0' '0' 13 8 0 0 [] rfl rfl rfl rfl
    simpa [from_u32] using h
  · exact C7_unescape_escapes.2.2.2.2.1 'z' ['0', '0', '0'] rfl
  · exact C7_unescape_escapes.2.2.2.2.2.2.2.2.2.1 '0' 0 rfl
  · have h := C7_unescape_escapes.2.1 'q' [] (by decide)
    simpa [Except.map, unescape_string] using h
  · have h := (C7_unescape_escapes.1 []).2.2.1
    simpa [Except.map, unescape_string] using h

/-! ### C5: a backslash before a raw line break -/

theorem utf8Chars_ascii : ∀ bs : List Nat, (∀ b ∈ bs, b < 128) →
    utf8Chars bs = bs.map Char.ofNat := by
  intro bs
  induction bs with
  | nil => intro _; rfl
  | cons b rest ih =>
    intro h
    have hb : b < 128 := h b (List.mem_cons_self b rest)
    rw [utf8Chars, if_pos hb, ih (fun x hx => h x (List.mem_cons_of_mem b hx))]
    rfl

theorem ofNat_ascii_ne_backslash {b : Nat} (hb : b < 128) (hne : b ≠ 92) :
    Char.ofNat b ≠ '\\' := by
  intro he
  have h1 := toNat_ofNat_of_ascii b hb
  rw [he] at h1
  exact hne (by rw [← h1]; rfl)

theorem unescape_clean_append : ∀ (cs tl : List Char), '\\' ∉ cs →
    unescape_string (cs ++ tl) =
      Except.map (fun buf => cs ++ buf) (unescape_string tl) := by
  intro cs
  induction cs with
  | nil =>
    intro tl h
    rw [List.nil_append]
    cases unescape_string tl <;> rfl
  | cons c cs ih =>
    intro tl h
    have hc : c ≠ '\\' := by
      intro he
      exact h (he ▸ List.mem_cons_self c cs)
    have h2 : '\\' ∉ cs := fun hm => h (List.mem_cons_of_mem c hm)
    rw [List.cons_append, unescape_not_backslash c hc, ih tl h2]
    cases unescape_string tl <;> rfl

theorem unescape_clean (cs : List Char) (h : '\\' ∉ cs) :
    unescape_string cs = .ok cs := by
  have h2 := unescape_clean_append cs [] h
  rw [List.append_nil] at h2
  rw [h2]
  show Except.ok (cs ++ []) = Except.ok cs
  rw [List.append_nil]

/-- C5: a backslash immediately before a raw line-break byte (newline or
carriage return) makes the string scanner skip that byte (it is not seen
by the line-break check), and unescaping passes the raw line-break
character through literally, so the quoted string
`"mid\`line-break`rest"` parses successfully to a string that contains
that line-break character. -/
theorem C5_backslash_escapes_linebreak :
    ∀ (mid rest : List Nat) (c : Nat),
      (c = 10 ∨ c = 13) →
      (∀ b ∈ mid, b < 128 ∧ b ≠ 10 ∧ b ≠ 13 ∧ b ≠ 34 ∧ b ≠ 92) →
      (∀ b ∈ rest, b < 128 ∧ b ≠ 10 ∧ b ≠ 13 ∧ b ≠ 34 ∧ b ≠ 92) →
      parse_string (34 :: (mid ++ 92 :: c :: (rest ++ [34]))) 0 =
        .ok (mid.map Char.ofNat ++ Char.ofNat c :: rest.map Char.ofNat,
          mid.length + rest.length + 4) ∧
      Char.ofNat c ∈ (mid.map Char.ofNat ++ Char.ofNat c :: rest.map Char.ofNat) ∧
      (Char.ofNat c = '\n' ∨ Char.ofNat c = '\r') := by
  intro mid rest c hc hmid hrest
  refine ⟨?_, List.mem_append_right _ (List.mem_cons_self _ _), ?_⟩
  case refine_2 =>
    rcases hc with rfl | rfl
    · exact Or.inl rfl
    · exact Or.inr rfl
  set s := 34 :: (mid ++ 92 :: c :: (rest ++ [34])) with hs
  have hq : s[0]? = some 34 := by rw [hs]; exact List.getElem?_cons_zero
  have hdrop1 : s.drop 1 = mid ++ 92 :: c :: (rest ++ [34]) := by rw [hs]; rfl
  have hlens : s.length = mid.length + rest.length + 4 := by
    simp only [hs, List.length_cons, List.length_append, List.length_nil]
    omega
  obtain ⟨fuel2, heq2, hle2⟩ := string_scan_clean s 1 mid (s.length + 1) 1 _
    hdrop1 (fun b hb => ⟨(hmid b hb).2.1, (hmid b hb).2.2.1,
      (hmid b hb).2.2.2.1, (hmid b hb).2.2.2.2⟩) (by omega)
  have hdropm : s.drop (1 + mid.length) = 92 :: c :: (rest ++ [34]) := by
    have h1 : (s.drop 1).drop mid.length = s.drop (1 + mid.length) :=
      List.drop_drop mid.length 1 s
    rw [← h1, hdrop1, List.drop_left mid _]
  obtain ⟨hget92, hdropn⟩ := drop_cons_of_drop s (1 + mid.length) 92 _ hdropm
  have hlt92 : 1 + mid.length < s.length := getElem?_some_lt hget92
  cases fuel2 with
  | zero => omega
  | succ f2 =>
    have hstep : string_scan s 1 (f2 + 1) (1 + mid.length) =
        string_scan s 1 f2 (1 + mid.length + 2) := by
      simp [string_scan, hget92]
    have hdropr2 : s.drop (1 + mid.length + 2) = rest ++ [34] := by
      have harith : 1 + mid.length + 1 + 1 = 1 + mid.length + 2 := by omega
      obtain ⟨_, hdropr⟩ := drop_cons_of_drop s (1 + mid.length + 1) c _ hdropn
      rw [← harith]
      exact hdropr
    obtain ⟨fuel3, heq3, hle3⟩ := string_scan_clean s 1 rest f2
      (1 + mid.length + 2) [34] hdropr2 (fun b hb => ⟨(hrest b hb).2.1,
        (hrest b hb).2.2.1, (hrest b hb).2.2.2.1, (hrest b hb).2.2.2.2⟩)
      (by omega)
    have hdropq : s.drop (1 + mid.length + 2 + rest.length) = [34] := by
      have h1 : (s.drop (1 + mid.length + 2)).drop rest.length =
          s.drop (1 + mid.length + 2 + rest.length) :=
        List.drop_drop rest.length (1 + mid.length + 2) s
      rw [← h1, hdropr2, List.drop_left rest _]
    obtain ⟨hget34, -⟩ :=
      drop_cons_of_drop s (1 + mid.length + 2 + rest.length) 34 [] hdropq
    have hlt34 : 1 + mid.length + 2 + rest.length < s.length :=
      getElem?_some_lt hget34
    cases fuel3 with
    | zero => omega
    | succ f3 =>
      have hfinal : string_scan s 1 (f3 + 1) (1 + mid.length + 2 + rest.length) =
          .ok (sliceBytes s 1 (1 + mid.length + 2 + rest.length),
            (1 + mid.length + 2 + rest.length) + 1) := by
        simp [string_scan, hget34]
      have hslice : sliceBytes s 1 (1 + mid.length + 2 + rest.length) =
          mid ++ 92 :: c :: rest := by
        unfold sliceBytes
        have harr : s.drop 1 = (mid ++ 92 :: c :: rest) ++ [34] := by
          rw [hdrop1]
          simp
        have hn : 1 + mid.length + 2 + rest.length - 1 =
            (mid ++ 92 :: c :: rest).length := by
          simp only [List.length_append, List.length_cons]
          omega
        rw [harr, hn, List.take_left]
      have hraw_ascii : ∀ b ∈ (mid ++ 92 :: c :: rest), b < 128 := by
        intro b hb
        rcases List.mem_append.mp hb with h1 | h1
        · exact (hmid b h1).1
        · rcases h1 with _ | ⟨_, h2⟩
          · omega
          · rcases h2 with _ | ⟨_, h3⟩
            · omega
            · exact (hrest b (by assumption)).1
      have hchars : utf8Chars (mid ++ 92 :: c :: rest) =
          mid.map Char.ofNat ++ '\\' :: Char.ofNat c :: rest.map Char.ofNat := by
        rw [utf8Chars_ascii _ hraw_ascii]
        simp only [List.map_append, List.map_cons,
          show Char.ofNat 92 = '\\' from rfl]
      have hnob1 : '\\' ∉ mid.map Char.ofNat := by
        intro hm
        obtain ⟨b, hb, he⟩ := List.mem_map.mp hm
        exact ofNat_ascii_ne_backslash (hmid b hb).1 (hmid b hb).2.2.2.2 he
      have hnob2 : '\\' ∉ rest.map Char.ofNat := by
        intro hm
        obtain ⟨b, hb, he⟩ := List.mem_map.mp hm
        exact ofNat_ascii_ne_backslash (hrest b hb).1 (hrest b hb).2.2.2.2 he
      have hcnot : Char.ofNat c ∉ (['f', 'b', 'n', 'r', 't', 'u'] : List Char) := by
        rcases hc with rfl | rfl <;> decide
      have hunesc : unescape_string
          (mid.map Char.ofNat ++ '\\' :: Char.ofNat c :: rest.map Char.ofNat) =
          .ok (mid.map Char.ofNat ++ Char.ofNat c :: rest.map Char.ofNat) := by
        rw [unescape_clean_append _ _ hnob1,
          unescape_other_escape (Char.ofNat c) hcnot, unescape_clean _ hnob2]
        rfl
      have hidx : (1 + mid.length + 2 + rest.length) + 1 =
          mid.length + rest.length + 4 := by omega
      have hscan : string_scan s 1 (s.length + 1) 1 =
          .ok (mid ++ 92 :: c :: rest, mid.length + rest.length + 4) := by
        rw [heq2, hstep, heq3, hfinal, hslice, hidx]
      simp only [parse_string, hq, if_pos rfl, hscan, hchars, hunesc]
      simp

/-- Witness for C5: the inputs `"a\` + newline + `b"` and `"a\` + carriage
return + `b"` parse to the strings `a`-newline-`b` and `a`-carriage
return-`b`. -/
theorem C5_backslash_escapes_linebreak_witness :
    parse_string [34, 97, 92, 10, 98, 34] 0 = .ok (['a', '\n', 'b'], 6) ∧
    parse_string [34, 97, 92, 13, 98, 34] 0 = .ok (['a', '\r', 'b'], 6) := by
  have h1 := C5_backslash_escapes_linebreak [97] [98] 10 (Or.inl rfl)
    (by decide) (by decide)
  have h2 := C5_backslash_escapes_linebreak [97] [98] 13 (Or.inr rfl)
    (by decide) (by decide)
  exact ⟨h1.1, h2.1⟩

/-! ### C8: Int vs Float selection and overflow -/

theorem hasDotExp_append (xs : List Nat) (b : Nat) :
    hasDotExp (xs ++ [b]) = (hasDotExp xs || isDotOrExp b) := by
  simp [hasDotExp, List.any_append]

set_option maxHeartbeats 2000000 in
theorem num_loop_isInt (s : List Nat) (start : Nat) :
    ∀ (fuel i : Nat) (st : NumState) (isInt : Bool) (endI : Nat) (isInt2 : Bool),
      start ≤ i →
      isInt = !hasDotExp (sliceBytes s start i) →
      (lateNumState st = true → hasDotExp (sliceBytes s start i) = true) →
      num_loop s fuel i st isInt = .ok (some endI, isInt2) →
      isInt2 = !hasDotExp (sliceBytes s start endI) := by
  intro fuel
  induction fuel with
  | zero =>
    intro i st isInt endI isInt2 _ _ _ hc
    simp [num_loop] at hc
  | succ fuel ih =>
    intro i st isInt endI isInt2 hle hP hQ hc
    cases hgi : s[i]? with
    | none => simp [num_loop, hgi] at hc
    | some b =>
      have hsnoc : sliceBytes s start (i + 1) = sliceBytes s start i ++ [b] :=
        sliceBytes_snoc s start i b hgi hle
      have hle1 : start ≤ i + 1 := by omega
      cases st <;>
        simp only [num_loop, hgi] at hc <;>
        split_ifs at hc <;>
        first
          | (refine ih (i + 1) _ _ endI isInt2 hle1 ?_ ?_ hc <;>
              simp_all [hsnoc, hasDotExp_append, lateNumState, isDotOrExp,
                beq_iff_eq] <;>
              omega)
          | (simp_all
             obtain ⟨rfl, h2⟩ := hc
             rw [h2, Bool.not_not])

/-- C8: among literals `parse_number` accepts, the result is `Int` exactly
when the captured token (`&source[start..end]`) contains no decimal point
and no exponent marker, and `Float` otherwise; an integer token whose
value does not fit in a signed 64-bit integer makes `parse_number` return
the integer-conversion error instead of falling back to a float. -/
theorem C8_int_float_selection :
    (∀ (s : List Nat) (i e : Nat) (n : Int),
       parse_number s i = .ok (.int n, e) →
       hasDotExp (sliceBytes s i e) = false) ∧
    (∀ (s : List Nat) (i e : Nat) (lit : List Nat),
       parse_number s i = .ok (.float lit, e) →
       lit = sliceBytes s i e ∧ hasDotExp lit = true) ∧
    (∀ (s : List Nat) (i e : Nat),
       num_scan s i = .ok (some e, true) →
       sliceBytes s i e ≠ [] →
       parse_i64 (sliceBytes s i e) = none →
       parse_number s i = .error .parseIntError) := by
  have hinv : ∀ (s : List Nat) (i e : Nat) (isInt2 : Bool),
      num_scan s i = .ok (some e, isInt2) →
      isInt2 = !hasDotExp (sliceBytes s i e) := by
    intro s i e isInt2 hscan
    refine num_loop_isInt s i (s.length + 1) i .start true e isInt2
      (le_refl i) ?_ ?_ hscan
    · rw [sliceBytes_self]
      rfl
    · intro hlate
      cases hlate
  refine ⟨?_, ?_, ?_⟩
  · intro s i e n hok
    cases hscan : num_scan s i with
    | error err => simp [parse_number, hscan] at hok
    | ok r =>
      obtain ⟨endOpt, isInt⟩ := r
      cases endOpt with
      | none => simp [parse_number, hscan, sliceBytes] at hok
      | some e2 =>
        have hi := hinv s i e2 isInt hscan
        by_cases hemp : (sliceBytes s i e2).isEmpty
        · simp [parse_number, hscan, hemp] at hok
        · cases isInt with
          | false => simp [parse_number, hscan, hemp] at hok
          | true =>
            cases hp : parse_i64 (sliceBytes s i e2) with
            | none => simp [parse_number, hscan, hemp, hp] at hok
            | some m =>
              simp [parse_number, hscan, hemp, hp] at hok
              rw [← hok.2]
              simpa using hi.symm
  · intro s i e lit hok
    cases hscan : num_scan s i with
    | error err => simp [parse_number, hscan] at hok
    | ok r =>
      obtain ⟨endOpt, isInt⟩ := r
      cases endOpt with
      | none => simp [parse_number, hscan, sliceBytes] at hok
      | some e2 =>
        have hi := hinv s i e2 isInt hscan
        by_cases hemp : (sliceBytes s i e2).isEmpty
        · simp [parse_number, hscan, hemp] at hok
        · cases isInt with
          | true =>
            cases hp : parse_i64 (sliceBytes s i e2) with
            | none => simp [parse_number, hscan, hemp, hp] at hok
            | some m => simp [parse_number, hscan, hemp, hp] at hok
          | false =>
            simp [parse_number, hscan, hemp] at hok
            obtain ⟨h3, h4⟩ := hok
            refine ⟨?_, ?_⟩
            · rw [← h3, ← h4]
            · rw [← h3]
              simpa using hi.symm
  · intro s i e hscan hne hp
    have hemp : (sliceBytes s i e).isEmpty = false := by
      simpa [List.isEmpty_iff] using hne
    simp [parse_number, hscan, hemp, hp]

/-- Witness for C8: the token of `"1 "` has no dot or exponent marker; the
token of `"1.5]"` is `1.5`, which has one; `"9223372036854775808 "`
overflows and surfaces `ParseIntError`. -/
theorem C8_int_float_selection_witness :
    hasDotExp (sliceBytes ([49, 32] : List Nat) 0 1) = false ∧
    ([49, 46, 53] : List Nat) = sliceBytes ([49, 46, 53, 93] : List Nat) 0 3 ∧
    hasDotExp ([49, 46, 53] : List Nat) = true ∧
    parse_number
      ("9223372036854775808 ".data.map Char.toNat) 0 = .error .parseIntError := by
  refine ⟨C8_int_float_selection.1 [49, 32] 0 1 1 rfl, ?_, ?_,
    C8_int_float_selection.2.2 ("9223372036854775808 ".data.map Char.toNat)
      0 19 rfl (by decide) rfl⟩
  · exact (C8_int_float_selection.2.1 [49, 46, 53, 93] 0 3 [49, 46, 53] rfl).1
  · exact (C8_int_float_selection.2.1 [49, 46, 53, 93] 0 3 [49, 46, 53] rfl).2
